import Mathlib

/-!
Verification of the svails CLI (a code-scaffolding tool) against its
natural-language specification.

The repository holds two TypeScript source files:
* `src/src/index.ts` — the current implementation, embedded below in
  namespace `V1`;
* `src/unnamed/part_000` — an older near-duplicate of the same program,
  embedded below in namespace `V2`.

Text is modelled as `List Char` (written `Str`); JavaScript template
literals become explicit list concatenations, with every brace of the
generated text written via the `\x7b` / `\x7d` escapes.  Fallible
external effects (the filesystem reads of `projectName`, the clone
subprocess of `init`) are modelled by explicit environments and
`Except` / exit codes.  JavaScript's `undefined` type tag (produced by
`arg.split(':')` when no `:` is present) is modelled by `Option Str`,
and template-literal stringification of `undefined` by the literal
string "undefined", exactly as JavaScript renders it.
-/

set_option maxRecDepth 100000

namespace Svails

/-- Text: a JavaScript string viewed as its sequence of characters. -/
abbrev Str := List Char

/-- The double-quote character, written via its code point to keep the
literal out of the templates below. -/
def qc : Char := Char.ofNat 34

/-- Embeds `function titleCase(input) { return input.charAt(0).toUpperCase() + input.slice(1) }`
from src/src/index.ts (the same expression is inlined in src/unnamed/part_000).
On the empty string JavaScript's `charAt(0)` returns `""`, so the result is `""`. -/
def titleCase : Str → Str
  | [] => []
  | c :: cs => c.toUpper :: cs

/-- JavaScript whitespace test used by `String.prototype.trimEnd`; the rendered
documents only ever end in spaces and newlines, so the ASCII cases suffice. -/
def jsWhitespace (c : Char) : Bool :=
  c = ' ' || c = '\n' || c = '\t' || c = '\r'

/-- Embeds `String.prototype.trimEnd`. -/
def trimEnd (s : Str) : Str :=
  (s.reverse.dropWhile jsWhitespace).reverse

/-- Embeds `String.prototype.includes` (substring test). -/
def includes (s pat : Str) : Bool :=
  decide (pat <:+: s)

/-- Embeds `String.prototype.split(':')` on the character level:
`"a:b:c".split(':') = ["a","b","c"]`, `"".split(':') = [""]`. -/
def splitColon : Str → List Str
  | [] => [[]]
  | c :: cs =>
    if c = ':' then [] :: splitColon cs
    else
      match splitColon cs with
      | [] => [[c]]
      | h :: t => (c :: h) :: t

/-- Embeds `Array.prototype.join(sep)`. -/
def joinSep (sep : Str) : List Str → Str
  | [] => []
  | [b] => b
  | b :: bs => b ++ sep ++ joinSep sep bs

/-- The `Field` record `{ field: string; type: string }` of both sources.
The `type` member is `Option Str` because the destructuring
`const [field, type] = arg.split(':')` leaves `type` as `undefined`
when the argument has no `:`. -/
structure Field where
  field : Str
  type : Option Str
deriving DecidableEq, Repr

-- Results of fallible external calls are compared concretely below,
-- so `Except` needs decidable equality.
deriving instance DecidableEq for Except

/-- JavaScript template-literal stringification of the type tag:
`undefined` prints as the text "undefined". -/
def typeStr : Option Str → Str
  | some t => t
  | none => "undefined".data

/-- Embeds the field parsing done in `form` in both sources:
`const [field, type] = arg.split(':')` — the text after a second `:`
is discarded by the destructuring. -/
def parseField (arg : Str) : Field :=
  match splitColon arg with
  | [] => { field := [], type := none }
  | [f] => { field := f, type := none }
  | f :: t :: _ => { field := f, type := some t }

/-- Embeds `renderHeader` (identical in both sources): imports for the
widgets are emitted only when the rendered field blocks mention them. -/
def renderHeader (renderedFields : Str) : Str :=
  trimEnd
    ((if includes renderedFields "Input".data then
        "  import \x7b Input \x7d from \"$ui/input\";\n".data
      else []) ++
     (if includes renderedFields "Textarea".data then
        "  import \x7b Textarea \x7d from \"$ui/textarea\";\n".data
      else []))

/-- Embeds `renderFormType` (identical in both sources): the multipart
attribute is produced exactly when the rendered field blocks contain
the marker text `type="file"`. -/
def renderFormType (renderedFields : Str) : Str :=
  if includes renderedFields "type=\"file\"".data then
    " enctype=\"multipart/form-data\"".data
  else []

namespace V1

/-- Embeds `renderInput` of src/src/index.ts. -/
def renderInput (f : Field) (name : Str) : Str :=
  if f.type = some "textarea".data then
    "<Textarea \x7b...attrs\x7d bind:value=\x7b$".data ++ name ++ "Data.".data ++
      f.field ++ "\x7d rows=\x7b4\x7d />".data
  else if f.type = some "files".data then
    "<Input \x7b...attrs\x7d bind:value=\x7b$".data ++ name ++ "Data.".data ++
      f.field ++ "\x7d type=\"file\" multiple />".data
  else
    "<Input \x7b...attrs\x7d bind:value=\x7b$".data ++ name ++ "Data.".data ++
      f.field ++ "\x7d type=\"".data ++ typeStr f.type ++ "\" />".data

/-- Embeds `renderField` of src/src/index.ts. -/
def renderField (f : Field) (name : Str) : Str :=
  "  <Form.Field form=\x7b".data ++ name ++ "\x7d name=\"".data ++ f.field ++
    "\">\n    <Form.Control let:attrs>\n      <Form.Label>".data ++
    titleCase f.field ++ "</Form.Label>\n      ".data ++ renderInput f name ++
    "\n    </Form.Control>\n    <Form.FieldErrors />\n  </Form.Field>".data

/-- Embeds `renderSchemaField` of src/src/index.ts. -/
def renderSchemaField (f : Field) : Str :=
  if f.type = some "email".data then
    "  ".data ++ f.field ++ ": z.string().email(),".data
  else if f.type = some "password".data then
    "  ".data ++ f.field ++ ": z.string().min(8, \x7b message: \"Password must be minimum 8 characters\" \x7d),".data
  else if f.type = some "number".data then
    "  ".data ++ f.field ++ ": z.number(),".data
  else if f.type = some "file".data then
    "  ".data ++ f.field ++ ": z.instanceof(File),".data
  else if f.type = some "files".data then
    "  ".data ++ f.field ++ ": z.array(z.instanceof(File)),".data
  else if f.type = some "date".data then
    "  ".data ++ f.field ++ ": z.date(),".data
  else
    "  ".data ++ f.field ++ ": z.string(),".data

/-- The parsed field list of `form`: `args.map(arg => ...)`. -/
def parsedFields (args : List Str) : List Field :=
  args.map parseField

/-- The rendered field blocks, in input order. -/
def renderedFieldBlocks (name : Str) (args : List Str) : List Str :=
  (parsedFields args).map (fun f => renderField f name)

/-- `fields.map((field) => renderField(field, name)).join("\n\n")`. -/
def renderedFields (name : Str) (fields : List Field) : Str :=
  joinSep "\n\n".data (fields.map (fun f => renderField f name))

/-- The per-field schema rules, in input order. -/
def schemaRuleLines (args : List Str) : List Str :=
  (parsedFields args).map renderSchemaField

/-- The filesystem environment consumed by `projectName`:
`readdir` models `node:fs/promises`' readdir (`none` = a thrown I/O
error), `fileText` models `Bun.file(path).text()` (`none` = the file
does not exist, so `text()` rejects), and `jsonName` models
`JSON.parse(body)["name"]` (`none` = no "name" entry). -/
structure FS where
  readdir : Str → Option (List Str)
  fileText : Str → Option Str
  jsonName : Str → Option Str

/-- Embeds the search loop of `projectName` in src/src/index.ts:
starting from `folder = "."`, up to 10 levels, look for a directory
listing containing "package.json" and read `${folder}package.json`.
Note the path concatenation is taken verbatim from the source: for
`folder = "."` it yields ".package.json". A thrown read is `.error`. -/
def projectNameLoop (fs : FS) : Str → Nat → Except Unit (Option Str)
  | _, 0 => .ok none
  | folder, fuel + 1 =>
    match fs.readdir folder with
    | none => .error ()
    | some files =>
      if "package.json".data ∈ files then
        match fs.fileText (folder ++ "package.json".data) with
        | none => .error ()
        | some body => .ok (fs.jsonName body)
      else
        projectNameLoop fs
          (if folder = ".".data then "../".data else folder ++ "../".data) fuel

/-- Embeds `projectName` of src/src/index.ts (10 loop iterations, then null). -/
def projectName (fs : FS) : Except Unit (Option Str) :=
  projectNameLoop fs ".".data 10

/-- Embeds `renderTitle` of src/src/index.ts, with the already-resolved
project lookup result as argument.  JavaScript's `if (project)` is
falsy both for `undefined` and for the empty string. -/
def renderTitle (name : Str) (project : Option Str) : Str :=
  match project with
  | some p => if p = [] then titleCase name else titleCase name ++ " - ".data ++ titleCase p
  | none => titleCase name

/-- Embeds the `+page.svelte` template of src/src/index.ts `form`. -/
def pageSvelte (name : Str) (fields : List Field) (project : Option Str) : Str :=
  "<script lang=\"ts\">\n  import * as Form from \"$ui/form\";\n".data ++
  renderHeader (renderedFields name fields) ++
  "\n  import \x7b superForm \x7d from \"sveltekit-superforms\";\n  import Loader from \"lucide-svelte/icons/loader\";\n\n  // Props\n  const \x7b data \x7d = $props();\n  const ".data ++
  name ++ " = superForm(data.".data ++ name ++
  ");\n  const \x7b form: ".data ++ name ++ "Data, delayed: ".data ++ name ++
  "Delayed, submitting: ".data ++ name ++ "Submitting, enhance: ".data ++ name ++
  "Enhance \x7d = ".data ++ name ++
  ";\n</script>\n\n<svelte:head>\n  <title>".data ++
  renderTitle name project ++
  "</title>\n</svelte:head>\n\n<h1 class=\"text-2xl font-bold mb-4\">".data ++
  titleCase name ++
  "</h1>\n\n<form class=\"grid gap-2\" method=\"post\" action=\"?/".data ++
  name ++ "\"".data ++ renderFormType (renderedFields name fields) ++
  " use:".data ++ name ++ "Enhance>\n".data ++
  renderedFields name fields ++
  "\n\n  <Form.Button disabled=\x7b$".data ++ name ++
  "Submitting\x7d>\n    \x7b#if $".data ++ name ++
  "Delayed\x7d\n      <Loader class=\"animate-spin\" />\n    \x7b:else\x7d\n      Submit\n    \x7b/if\x7d\n  </Form.Button>\n</form>".data

/-- Embeds the `+page.server.ts` template of src/src/index.ts `form`. -/
def pageServer (name : Str) (fields : List Field) : Str :=
  "import \x7b z \x7d from \"zod\";\nimport \x7b zod \x7d from \"sveltekit-superforms/adapters\";\nimport \x7b fail, superValidate \x7d from \"sveltekit-superforms\";\nimport type \x7b Actions, PageServerLoad \x7d from \"./$types\";\n\nconst ".data ++
  name ++ "Schema = z.object(\x7b\n".data ++
  trimEnd (joinSep "\n".data (fields.map renderSchemaField)) ++
  "\n\x7d);\n\nexport const load: PageServerLoad = async () => \x7b\n  // Initialize form\n  return \x7b\n    ".data ++
  name ++ ": await superValidate(zod(".data ++ name ++
  "Schema)),\n  \x7d;\n\x7d;\n\nexport const actions: Actions = \x7b\n  ".data ++
  name ++ ": async (\x7b request \x7d) => \x7b\n    // Validate form\n    const ".data ++
  name ++ " = await superValidate(request, zod(".data ++ name ++
  "Schema));\n    if (!".data ++ name ++
  ".valid) return fail(400, \x7b ".data ++ name ++
  " \x7d);\n    const \x7b ".data ++
  joinSep ", ".data (fields.map (fun f => f.field)) ++
  " \x7d = ".data ++ name ++ ".data;\n    console.log(".data ++
  joinSep ", ".data (fields.map (fun f => f.field)) ++
  ");\n  \x7d,\n\x7d;".data

/-- Embeds the whole `form` command of src/src/index.ts as a function of
the filesystem environment and its two arguments, producing the two
documents; a thrown `projectName` aborts the run. -/
def formRun (fs : FS) (name : Str) (args : List Str) : Except Unit (Str × Str) :=
  match projectName fs with
  | .error e => .error e
  | .ok project =>
    .ok (pageSvelte name (parsedFields args) project,
         pageServer name (parsedFields args))

/-- The externally observable steps of the `init` command branch. -/
inductive InitStep where
  | clone
  | moveGit
  | sedTitle
  | sedLower
deriving DecidableEq, Repr

/-- Embeds the `init` command branch of src/src/index.ts as a trace:
`git clone` runs first; on failure the error message is printed and the
process exits with code 1 before the `.git` relocation and the two
`sed` rewrites; on success all four steps run and the process falls
through (exit code 0). -/
def initRun (cloneOk : Bool) : List InitStep × List Str × Nat :=
  if cloneOk then
    ([InitStep.clone, InitStep.moveGit, InitStep.sedTitle, InitStep.sedLower], [], 0)
  else
    ([InitStep.clone], ["Failed to clone the repository.".data], 1)

end V1

namespace V2

/-- Embeds `renderInput` of src/unnamed/part_000. Note the fallback
branch interpolates the field NAME into the `type` attribute. -/
def renderInput (f : Field) (name : Str) : Str :=
  if f.type = some "textarea".data then
    "<Textarea \x7b...attrs\x7d bind:value=\x7b$".data ++ name ++ ".form.".data ++
      f.field ++ "\x7d rows=\x7b4\x7d />".data
  else if f.type = some "files".data then
    "<Input \x7b...attrs\x7d bind:value=\x7b$".data ++ name ++ ".form.".data ++
      f.field ++ "\x7d type=\"file\" multiple />".data
  else
    "<Input \x7b...attrs\x7d bind:value=\x7b$".data ++ name ++ ".form.".data ++
      f.field ++ "\x7d type=\"".data ++ f.field ++ "\" />".data

/-- Embeds `renderField` of src/unnamed/part_000 (attribute `field=`,
inline first-character capitalization). -/
def renderField (f : Field) (name : Str) : Str :=
  "  <Form.Field form=\x7b".data ++ name ++ "\x7d field=\"".data ++ f.field ++
    "\">\n    <Form.Control let:attrs>\n      <Form.Label>".data ++
    titleCase f.field ++ "</Form.Label>\n      ".data ++ renderInput f name ++
    "\n    </Form.Control>\n    <Form.FieldErrors />\n  </Form.Field>".data

/-- Embeds `renderSchemaField` of src/unnamed/part_000 — it has no
`date` branch. -/
def renderSchemaField (f : Field) : Str :=
  if f.type = some "email".data then
    "  ".data ++ f.field ++ ": z.string().email(),".data
  else if f.type = some "password".data then
    "  ".data ++ f.field ++ ": z.string().min(8, \x7b message: \"Password must be minimum 8 characters\" \x7d),".data
  else if f.type = some "number".data then
    "  ".data ++ f.field ++ ": z.number(),".data
  else if f.type = some "file".data then
    "  ".data ++ f.field ++ ": z.instanceof(File),".data
  else if f.type = some "files".data then
    "  ".data ++ f.field ++ ": z.array(z.instanceof(File)),".data
  else
    "  ".data ++ f.field ++ ": z.string(),".data

/-- `fields.map((field) => renderField(field, name)).join("\n\n")` of part_000. -/
def renderedFields (name : Str) (fields : List Field) : Str :=
  joinSep "\n\n".data (fields.map (fun f => renderField f name))

/-- Embeds the `+page.svelte` template of src/unnamed/part_000 `form`
(no title lookup, `text-xl` heading, `use:enhance={name.enhance}`). -/
def pageSvelte (name : Str) (fields : List Field) : Str :=
  "<script lang=\"ts\">\n  import * as Form from \"$ui/form\";\n".data ++
  renderHeader (renderedFields name fields) ++
  "\n  import \x7b superForm \x7d from \"sveltekit-superforms\";\n  import Loader from \"lucide-svelte/icons/loader\";\n\n  // Props\n  const \x7b data \x7d = $props();\n  const ".data ++
  name ++ " = superForm(data.".data ++ name ++
  ");\n</script>\n\n<h1 class=\"text-xl font-bold mb-4\">".data ++
  titleCase name ++
  "</h1>\n\n<form class=\"grid gap-2\" method=\"post\"".data ++
  renderFormType (renderedFields name fields) ++
  " use:enhance=\x7b".data ++ name ++ ".enhance\x7d>\n".data ++
  renderedFields name fields ++
  "\n\n  <Form.Button disabled=\x7b$".data ++ name ++
  ".submitting\x7d>\n    \x7b#if $".data ++ name ++
  ".delayed\x7d\n      <Loader class=\"animate-spin\" />\n    \x7b:else\x7d\n      Submit\n    \x7b/if\x7d\n  </Form.Button>\n</form>".data

/-- Embeds the `+page.server.ts` template of src/unnamed/part_000 `form`
(`default:` action key, `fail(400, { form: name })`, business-logic stub). -/
def pageServer (name : Str) (fields : List Field) : Str :=
  "import \x7b z \x7d from \"zod\";\nimport \x7b zod \x7d from \"sveltekit-superforms/adapters\";\nimport \x7b fail, superValidate \x7d from \"sveltekit-superforms\";\nimport \x7b type Actions, type PageServerLoad \x7d from \"./$types\";\n\nconst ".data ++
  name ++ "Schema = z.object(\x7b\n".data ++
  trimEnd (joinSep "\n".data (fields.map renderSchemaField)) ++
  "\n\x7d);\n\nexport const load: PageServerLoad = async () => \x7b\n  // Initialize form\n  return \x7b\n    ".data ++
  name ++ ": await superValidate(zod(".data ++ name ++
  "Schema)),\n  \x7d;\n\x7d;\n\nexport const actions: Actions = \x7b\n  default: async (\x7b request \x7d) => \x7b\n    // Validate form\n    const ".data ++
  name ++ " = await superValidate(request, zod(".data ++ name ++
  "Schema));\n    if (!".data ++ name ++
  ".valid) return fail(400, \x7b form: ".data ++ name ++
  " \x7d);\n    const \x7b ".data ++
  joinSep ", ".data (fields.map (fun f => f.field)) ++
  " \x7d = ".data ++ name ++ ".data;\n\n    // Business logic\n  \x7d,\n\x7d;".data

/-- The document pair produced by part_000's `form`. -/
def formDocs (name : Str) (args : List Str) : Str × Str :=
  (pageSvelte name (args.map parseField), pageServer name (args.map parseField))

end V2

/-- Hypothesis for the multipart-attribute analysis: the form name, the
field name and the (stringified) type tag contain no double-quote
character, so the only quotes in a rendered block come from the fixed
template text. -/
def quoteFree (name : Str) (f : Field) : Prop :=
  qc ∉ name ∧ qc ∉ f.field ∧ qc ∉ typeStr f.type

/-- Hypothesis for the widget-import analysis: the widget marker `M`
("Input" or "Textarea") does not occur inside the form name, the field
name, the capitalized label or the stringified type tag, so the marker
can only come from a rendered widget itself. -/
def widgetMarkerFree (M : Str) (name : Str) (f : Field) : Prop :=
  ¬ M <:+: name ∧ ¬ M <:+: f.field ∧ ¬ M <:+: titleCase f.field ∧
    ¬ M <:+: typeStr f.type

instance (name : Str) (f : Field) : Decidable (quoteFree name f) := by
  unfold quoteFree
  infer_instance

instance (M name : Str) (f : Field) : Decidable (widgetMarkerFree M name f) := by
  unfold widgetMarkerFree
  infer_instance

end Svails

namespace Svails

/-! ### Basic lemmas about the split of `field:type` arguments -/

theorem splitColon_ne_nil (s : Str) : splitColon s ≠ [] := by
  cases s with
  | nil => simp [splitColon]
  | cons c cs =>
    simp only [splitColon]
    split
    · simp
    · split <;> simp

theorem splitColon_head (s : Str) :
    ∃ t, splitColon s = (s.takeWhile (fun c => c != ':')) :: t := by
  induction s with
  | nil => exact ⟨[], rfl⟩
  | cons c cs ih =>
    by_cases h : c = ':'
    · subst h
      refine ⟨splitColon cs, ?_⟩
      simp [splitColon, List.takeWhile_cons]
    · obtain ⟨t, ht⟩ := ih
      refine ⟨t, ?_⟩
      simp [splitColon, h, ht, List.takeWhile_cons]

theorem parseField_cons (c : Char) (cs : Str) (h : ¬ c = ':') :
    parseField (c :: cs) =
      { field := c :: (parseField cs).field, type := (parseField cs).type } := by
  cases hs : splitColon cs with
  | nil => exact absurd hs (splitColon_ne_nil cs)
  | cons hd tl =>
    cases tl with
    | nil => simp [parseField, splitColon, h, hs]
    | cons t2 tl2 => simp [parseField, splitColon, h, hs]

theorem parseField_no_colon (arg : Str) (h : ':' ∉ arg) :
    parseField arg = { field := arg, type := none } := by
  induction arg with
  | nil => rfl
  | cons c cs ih =>
    have hc : ¬ c = ':' := fun hcc => h (hcc ▸ List.mem_cons_self c cs)
    have hcs : ':' ∉ cs := fun hm => h (List.mem_cons_of_mem c hm)
    rw [parseField_cons c cs hc, ih hcs]

/-- C10: field-argument parsing is total: the field name is the text
before the first `:` (the whole string when none is present), the type
tag is the text strictly between the first and the second `:` (absent
when no `:` is present), and any text after a second `:` is discarded.
The embedding itself is a total function, so rendering any parsed field
produces a string. -/
theorem c10_parse_total (arg : Str) :
    (parseField arg).field = arg.takeWhile (fun c => c != ':') ∧
    (parseField arg).type =
      (if ':' ∈ arg then
        some (((arg.dropWhile (fun c => c != ':')).tail).takeWhile (fun c => c != ':'))
      else none) := by
  induction arg with
  | nil => exact ⟨rfl, rfl⟩
  | cons c cs ih =>
    by_cases h : c = ':'
    · subst h
      obtain ⟨t, ht⟩ := splitColon_head cs
      constructor
      · simp [parseField, splitColon, ht, List.takeWhile_cons]
      · simp [parseField, splitColon, ht, List.dropWhile_cons, List.takeWhile_cons]
    · rw [parseField_cons c cs h]
      have hmem : (':' ∈ c :: cs) = (':' ∈ cs) := by
        simp only [List.mem_cons, eq_iff_iff]
        exact ⟨fun hm => hm.elim (fun hcc => absurd hcc.symm h) id, Or.inr⟩
      constructor
      · simp [List.takeWhile_cons, h, ih.1]
      · rw [ih.2]
        simp [hmem, List.dropWhile_cons, h]

/-- C5: an argument with no `:` does not make the renderer fail: the
whole string becomes the field name, the type tag is absent
(JavaScript's `undefined`), the schema rule is the generic string rule,
and the input fragment is the fallback single-line widget (whose `type`
attribute is the stringified `undefined`). -/
theorem c5_missing_colon (arg name : Str) (h : ':' ∉ arg) :
    parseField arg = { field := arg, type := none } ∧
    V1.renderSchemaField (parseField arg) = "  ".data ++ arg ++ ": z.string(),".data ∧
    V1.renderInput (parseField arg) name =
      "<Input \x7b...attrs\x7d bind:value=\x7b$".data ++ name ++ "Data.".data ++
        arg ++ "\x7d type=\"undefined\" />".data := by
  have hp := parseField_no_colon arg h
  refine ⟨hp, ?_, ?_⟩
  · rw [hp]
    simp [V1.renderSchemaField]
  · rw [hp]
    simp [V1.renderInput, typeStr]

/-- C5 witness at the concrete argument "username". -/
theorem c5_missing_colon_witness :
    parseField "username".data = { field := "username".data, type := none } ∧
    V1.renderSchemaField (parseField "username".data) =
      "  ".data ++ "username".data ++ ": z.string(),".data ∧
    V1.renderInput (parseField "username".data) "f".data =
      "<Input \x7b...attrs\x7d bind:value=\x7b$".data ++ "f".data ++ "Data.".data ++
        "username".data ++ "\x7d type=\"undefined\" />".data :=
  c5_missing_colon "username".data "f".data (by decide)

/-- C1 (amended): the schema rule produced for a parsed field is the
fixed rule keyed by its type — email, password, number, file, files as
claimed, and every unrecognized, empty or absent type the generic
string rule — in both renderer implementations; but the `date` rule is
produced only by the renderer of src/src/index.ts, while the renderer
of src/unnamed/part_000 has no `date` branch and renders the generic
string rule for it. -/
theorem c1_schema_rules (fld : Str) :
    (V1.renderSchemaField { field := fld, type := some "email".data } =
        "  ".data ++ fld ++ ": z.string().email(),".data ∧
      V2.renderSchemaField { field := fld, type := some "email".data } =
        "  ".data ++ fld ++ ": z.string().email(),".data) ∧
    (V1.renderSchemaField { field := fld, type := some "password".data } =
        "  ".data ++ fld ++ ": z.string().min(8, \x7b message: \"Password must be minimum 8 characters\" \x7d),".data ∧
      V2.renderSchemaField { field := fld, type := some "password".data } =
        "  ".data ++ fld ++ ": z.string().min(8, \x7b message: \"Password must be minimum 8 characters\" \x7d),".data) ∧
    (V1.renderSchemaField { field := fld, type := some "number".data } =
        "  ".data ++ fld ++ ": z.number(),".data ∧
      V2.renderSchemaField { field := fld, type := some "number".data } =
        "  ".data ++ fld ++ ": z.number(),".data) ∧
    (V1.renderSchemaField { field := fld, type := some "file".data } =
        "  ".data ++ fld ++ ": z.instanceof(File),".data ∧
      V2.renderSchemaField { field := fld, type := some "file".data } =
        "  ".data ++ fld ++ ": z.instanceof(File),".data) ∧
    (V1.renderSchemaField { field := fld, type := some "files".data } =
        "  ".data ++ fld ++ ": z.array(z.instanceof(File)),".data ∧
      V2.renderSchemaField { field := fld, type := some "files".data } =
        "  ".data ++ fld ++ ": z.array(z.instanceof(File)),".data) ∧
    (V1.renderSchemaField { field := fld, type := some "date".data } =
        "  ".data ++ fld ++ ": z.date(),".data ∧
      V2.renderSchemaField { field := fld, type := some "date".data } =
        "  ".data ++ fld ++ ": z.string(),".data) ∧
    (∀ t : Option Str,
      t ∉ ([some "email".data, some "password".data, some "number".data,
            some "file".data, some "files".data, some "date".data] : List (Option Str)) →
      V1.renderSchemaField { field := fld, type := t } =
          "  ".data ++ fld ++ ": z.string(),".data ∧
        V2.renderSchemaField { field := fld, type := t } =
          "  ".data ++ fld ++ ": z.string(),".data) := by
  refine ⟨⟨rfl, rfl⟩, ⟨rfl, rfl⟩, ⟨rfl, rfl⟩, ⟨rfl, rfl⟩, ⟨rfl, rfl⟩, ⟨rfl, rfl⟩, ?_⟩
  intro t ht
  simp only [List.mem_cons, List.not_mem_nil, or_false, not_or] at ht
  obtain ⟨h1, h2, h3, h4, h5, h6⟩ := ht
  constructor
  · simp [V1.renderSchemaField, h1, h2, h3, h4, h5, h6]
  · simp [V2.renderSchemaField, h1, h2, h3, h4, h5]

/-- C1 counterexample: the claim as stated fails for the renderer of
src/unnamed/part_000, whose schema rule for a field of type `date` is
the generic string rule, not a date rule. -/
theorem c1_date_counterexample :
    V2.renderSchemaField { field := "d".data, type := some "date".data } =
        "  d: z.string(),".data ∧
      V2.renderSchemaField { field := "d".data, type := some "date".data } ≠
        "  d: z.date(),".data := by
  constructor
  · rfl
  · decide

/-- C1 witness: the fallback branch of the amended theorem applied at
the concrete unrecognized type "text". -/
theorem c1_schema_rules_witness :
    V1.renderSchemaField { field := "x".data, type := some "text".data } =
        "  ".data ++ "x".data ++ ": z.string(),".data ∧
      V2.renderSchemaField { field := "x".data, type := some "text".data } =
        "  ".data ++ "x".data ++ ": z.string(),".data :=
  (c1_schema_rules "x".data).2.2.2.2.2.2 (some "text".data) (by decide)

/-- Helper: an occurrence of `mid` in the tail of a concatenation is an
occurrence in the whole. -/
theorem append_shift_decomp (a mid rest : Str) :
    (∃ p q, rest = p ++ (mid ++ q)) → ∃ p q, a ++ rest = p ++ (mid ++ q) := by
  rintro ⟨p, q, rfl⟩
  exact ⟨a ++ p, q, by simp⟩

/-- C2: the number of rendered field blocks equals the number of schema
rules equals the number of `field:type` arguments, the i-th block and
i-th rule are rendered from the i-th argument (order preserved), and
the two generated documents embed exactly these lists (joined in input
order) as their field-block and schema-rule sections.  Stated for the
renderer of src/src/index.ts; the renderer of src/unnamed/part_000 maps
the same parsed list the same way. -/
theorem c2_counts_and_order (name : Str) (args : List Str) (project : Option Str) :
    (V1.renderedFieldBlocks name args).length = args.length ∧
    (V1.schemaRuleLines args).length = args.length ∧
    (∀ i (h : i < args.length) (h1 : i < (V1.renderedFieldBlocks name args).length)
        (h2 : i < (V1.schemaRuleLines args).length),
      (V1.renderedFieldBlocks name args).get ⟨i, h1⟩ =
          V1.renderField (parseField (args.get ⟨i, h⟩)) name ∧
        (V1.schemaRuleLines args).get ⟨i, h2⟩ =
          V1.renderSchemaField (parseField (args.get ⟨i, h⟩))) ∧
    (∃ pre post, V1.pageSvelte name (V1.parsedFields args) project =
        pre ++ (joinSep "\n\n".data (V1.renderedFieldBlocks name args) ++ post)) ∧
    (∃ pre post, V1.pageServer name (V1.parsedFields args) =
        pre ++ (trimEnd (joinSep "\n".data (V1.schemaRuleLines args)) ++ post)) := by
  refine ⟨?_, ?_, ?_, ?_, ?_⟩
  · simp [V1.renderedFieldBlocks, V1.parsedFields]
  · simp [V1.schemaRuleLines, V1.parsedFields]
  · intro i h h1 h2
    constructor
    · simp [V1.renderedFieldBlocks, V1.parsedFields, List.get_map]
    · simp [V1.schemaRuleLines, V1.parsedFields, List.get_map]
  · unfold V1.pageSvelte
    rw [show V1.renderedFields name (V1.parsedFields args) =
          joinSep "\n\n".data (V1.renderedFieldBlocks name args) from rfl]
    simp only [List.append_assoc]
    repeat first
    | exact ⟨[], _, rfl⟩
    | apply append_shift_decomp
  · unfold V1.pageServer
    rw [show (V1.parsedFields args).map V1.renderSchemaField = V1.schemaRuleLines args from rfl]
    simp only [List.append_assoc]
    repeat first
    | exact ⟨[], _, rfl⟩
    | apply append_shift_decomp

/-- C2 witness at a concrete two-field invocation. -/
theorem c2_counts_and_order_witness :
    (V1.renderedFieldBlocks "login".data ["email:email".data, "password:password".data]).get
        ⟨1, by decide⟩ =
      V1.renderField (parseField "password:password".data) "login".data :=
  ((c2_counts_and_order "login".data ["email:email".data, "password:password".data]
      none).2.2.1 1 (by decide) (by decide) (by decide)).1

/-- C6: when the clone step of the `init` command fails, the failure
message is reported and the process exits with status 1; the
version-control-metadata relocation and the two placeholder rewrites
are not executed. -/
theorem c6_init_clone_failure (cloneOk : Bool) (h : cloneOk = false) :
    V1.initRun cloneOk =
        ([V1.InitStep.clone], ["Failed to clone the repository.".data], 1) ∧
      V1.InitStep.moveGit ∉ (V1.initRun cloneOk).1 ∧
      V1.InitStep.sedTitle ∉ (V1.initRun cloneOk).1 ∧
      V1.InitStep.sedLower ∉ (V1.initRun cloneOk).1 ∧
      (V1.initRun cloneOk).2.2 ≠ 0 := by
  subst h
  refine ⟨rfl, ?_, ?_, ?_, ?_⟩ <;> decide

/-- C6 witness at the concrete failing clone. -/
theorem c6_init_clone_failure_witness :
    V1.initRun false =
        ([V1.InitStep.clone], ["Failed to clone the repository.".data], 1) ∧
      V1.InitStep.moveGit ∉ (V1.initRun false).1 ∧
      V1.InitStep.sedTitle ∉ (V1.initRun false).1 ∧
      V1.InitStep.sedLower ∉ (V1.initRun false).1 ∧
      (V1.initRun false).2.2 ≠ 0 :=
  c6_init_clone_failure false rfl

/-- C9: the two renderer implementations are not equivalent: at form
name "f" with the single field "d:date" the document pairs differ (the
date schema rule, the action-handler key, the title lookup and several
template details all diverge). -/
theorem c9_implementations_differ :
    ∃ (name : Str) (args : List Str) (project : Option Str),
      (V1.pageSvelte name (V1.parsedFields args) project,
        V1.pageServer name (V1.parsedFields args)) ≠
        V2.formDocs name args := by
  refine ⟨"f".data, ["d:date".data], none, ?_⟩
  decide

/-- C7 counterexample: the claim as stated fails because the rendered
view document is not a function of the arguments alone: two runs with
identical form name and field list, but different filesystem states for
the project-manifest lookup, produce different bytes (the title line
differs). -/
theorem c7_env_counterexample :
    V1.formRun
        { readdir := fun _ => some [], fileText := fun _ => none,
          jsonName := fun _ => none }
        "f".data ["a:text".data] ≠
      V1.formRun
        { readdir := fun p => if p = ".".data then some [] else some ["package.json".data],
          fileText := fun _ => some "body".data,
          jsonName := fun _ => some "proj".data }
        "f".data ["a:text".data] := by
  decide

/-- C7 (amended): rendering is deterministic in the arguments and the
project-manifest lookup result — two runs with identical form name,
field list and `projectName` outcome produce byte-identical view and
server documents; the filesystem enters only through `projectName`. -/
theorem c7_deterministic (fs1 fs2 : V1.FS) (name : Str) (args : List Str)
    (h : V1.projectName fs1 = V1.projectName fs2) :
    V1.formRun fs1 name args = V1.formRun fs2 name args := by
  unfold V1.formRun
  rw [h]

/-- C7 witness: two concrete environments that differ in irrelevant
file contents but agree on the manifest lookup give identical runs. -/
theorem c7_deterministic_witness :
    V1.formRun
        { readdir := fun _ => some [], fileText := fun _ => none,
          jsonName := fun _ => none }
        "f".data ["a:text".data] =
      V1.formRun
        { readdir := fun _ => some [], fileText := fun _ => some "junk".data,
          jsonName := fun _ => none }
        "f".data ["a:text".data] :=
  c7_deterministic _ _ "f".data ["a:text".data] (by decide)

/-- C8: the project-manifest lookup is buggy at level 0: the path it
reads is `"." + "package.json" = ".package.json"`, so when the working
directory itself contains package.json the lookup throws (the read
fails) instead of returning the declared name — the renderer crashes
rather than producing the suffixed title.  The fail-open half of the
claim does hold: with no manifest within 10 levels the lookup returns
null and the title is the bare capitalized form name. -/
theorem c8_manifest_lookup_bug :
    (".".data ++ "package.json".data = ".package.json".data) ∧
    V1.projectName
        { readdir := fun _ => some ["package.json".data],
          fileText := fun p => if p = "./package.json".data then some "x".data else none,
          jsonName := fun _ => some "myapp".data } = Except.error () ∧
    V1.projectName
        { readdir := fun _ => some [], fileText := fun _ => none,
          jsonName := fun _ => none } = Except.ok none ∧
    V1.renderTitle "login".data none = "Login".data := by
  refine ⟨rfl, by decide, by decide, by decide⟩

/-! ### Substring machinery

The conditional imports (`renderHeader`) and the multipart attribute
(`renderFormType`) are keyed on substring tests over the rendered field
blocks.  The lemmas below decompose substring occurrences across the
concatenations that build those blocks. -/

theorem includes_iff (s pat : Str) : includes s pat = true ↔ pat <:+: s := by
  simp [includes]

theorem infix_ext_right (m x y : Str) (h : m <:+: x) : m <:+: x ++ y := by
  obtain ⟨s, t, rfl⟩ := h
  exact ⟨s, t ++ y, by simp⟩

theorem infix_ext_left (m x y : Str) (h : m <:+: y) : m <:+: x ++ y := by
  obtain ⟨s, t, rfl⟩ := h
  exact ⟨x ++ s, t, by simp⟩

theorem not_infix_of_mem (m t : Str) (c : Char) (hc : c ∈ m) (ht : c ∉ t) :
    ¬ m <:+: t :=
  fun h => ht (h.sublist.subset hc)

theorem mem_of_suffix_mem (u x : Str) (c : Char) (h : u <:+ x) (hc : c ∈ u) :
    c ∈ x :=
  h.sublist.subset hc

theorem suffix_getLast (u x : Str) (h : u <:+ x) (hu : u ≠ []) :
    x.getLast? = u.getLast? := by
  obtain ⟨t, rfl⟩ := h
  rw [List.getLast?_append]
  cases hg : u.getLast? with
  | none => exact absurd (List.getLast?_eq_none_iff.mp hg) hu
  | some c => rfl

theorem prefix_take_prefix (v y : Str) (k : Nat) (h : v <+: y) :
    v.take k <+: y.take k := by
  obtain ⟨t, rfl⟩ := h
  rw [List.take_append_eq_append_take]
  exact ⟨_, rfl⟩

theorem take_of_append_lit (lit rest : Str) (k : Nat) (hk : k ≤ lit.length) :
    (lit ++ rest).take k = lit.take k := by
  rw [List.take_append_eq_append_take, Nat.sub_eq_zero_of_le hk, List.take_zero,
    List.append_nil]

theorem getLast_of_append_lit (x lit : Str) (c : Char) (h : lit.getLast? = some c) :
    (x ++ lit).getLast? = some c := by
  rw [List.getLast?_append, h]
  rfl

/-- Decomposition of a substring occurrence across a concatenation:
either the pattern lies in the left part, or in the right part, or it
spans the boundary with a nonempty take that is a suffix of the left
part and the matching drop a prefix of the right part. -/
theorem infix_split (m x y : Str) :
    m <:+: x ++ y ↔ m <:+: x ∨ m <:+: y ∨
      ∃ j, 0 < j ∧ j < m.length ∧ m.take j <:+ x ∧ m.drop j <+: y := by
  constructor
  · rintro ⟨s, t, hst⟩
    rw [List.append_assoc] at hst
    rcases List.append_eq_append_iff.mp hst with ⟨a, hx, hmt⟩ | ⟨c, hs, hy⟩
    · rcases List.append_eq_append_iff.mp hmt with ⟨b, ha, ht⟩ | ⟨c, hm, hy⟩
      · subst ha
        refine Or.inl ⟨s, b, ?_⟩
        rw [hx]
        exact List.append_assoc s m b
      · by_cases hc0 : a = []
        · subst hc0
          simp only [List.nil_append] at hm
          refine Or.inr (Or.inl ⟨[], t, ?_⟩)
        
          rw [hy, hm, List.nil_append]
        · by_cases hcc : c = []
          · subst hcc
            rw [List.append_nil] at hm
            refine Or.inl ⟨s, [], ?_⟩
            rw [List.append_nil, hx, hm]
          · refine Or.inr (Or.inr ⟨a.length, ?_, ?_, ?_, ?_⟩)
            · cases a with
              | nil => exact absurd rfl hc0
              | cons u us => simp
            · rw [hm, List.length_append]
              cases c with
              | nil => exact absurd rfl hcc
              | cons u us => simp
            · rw [hm, List.take_left]
              exact ⟨s, hx.symm⟩
            · rw [hm, List.drop_left]
              exact ⟨t, hy.symm⟩
    · refine Or.inr (Or.inl ⟨c, t, ?_⟩)
      rw [List.append_assoc]
      exact hy.symm
  · rintro (⟨s, t, rfl⟩ | ⟨s, t, rfl⟩ | ⟨j, hj0, hjl, ⟨s, hs⟩, ⟨t, ht⟩⟩)
    · exact ⟨s, t ++ y, by simp⟩
    · exact ⟨x ++ s, t, by simp⟩
    · refine ⟨s, t, ?_⟩
      rw [← hs, ← ht]
      simp only [List.append_assoc]
      rw [← List.append_assoc (List.take j m), List.take_append_drop]

/-- Decomposition of a prefix across a concatenation. -/
theorem prefix_split (m x y : Str) :
    m <+: x ++ y ↔ m <+: x ∨ (x <+: m ∧ m.drop x.length <+: y) := by
  constructor
  · rintro ⟨t, ht⟩
    rcases List.append_eq_append_iff.mp ht with ⟨a, hx, ha⟩ | ⟨c, hm, hy⟩
    · exact Or.inl ⟨a, hx.symm⟩
    · refine Or.inr ⟨⟨c, hm.symm⟩, t, ?_⟩
      rw [hm, List.drop_left]
      exact hy.symm
  · rintro (⟨t, rfl⟩ | ⟨⟨c, hm⟩, t, ht⟩)
    · exact ⟨t ++ y, by simp⟩
    · refine ⟨t, ?_⟩
      rw [← hm, List.drop_left] at ht
      rw [← hm, ← ht, List.append_assoc]

theorem infix_append_elim (m x y : Str) (hx : ¬ m <:+: x)
    (hspan : ∀ j, j < m.length → 0 < j → m.take j <:+ x → m.drop j <+: y → False) :
    m <:+: x ++ y → m <:+: y := by
  intro h
  rcases (infix_split m x y).1 h with h | h | ⟨j, hj0, hjl, hsuf, hpre⟩
  · exact absurd h hx
  · exact h
  · exact (hspan j hjl hj0 hsuf hpre).elim

theorem span_kill_take (m x y : Str)
    (hdec : ∀ j, j < m.length → 0 < j → ¬ m.take j <:+ x) :
    ∀ j, j < m.length → 0 < j → m.take j <:+ x → m.drop j <+: y → False :=
  fun j hl h0 hs _ => hdec j hl h0 hs

theorem span_kill_front (m x y p : Str) (k : Nat) (hy : y.take k = p)
    (hdec : ∀ j, j < m.length → 0 < j → ¬ (m.drop j).take k <+: p) :
    ∀ j, j < m.length → 0 < j → m.take j <:+ x → m.drop j <+: y → False := by
  intro j hl h0 _ hpre
  exact hdec j hl h0 (hy ▸ prefix_take_prefix _ _ k hpre)

theorem span_kill_front2 (M x y p : Str) (k : Nat) (hy : y.take k = p)
    (hdec : ∀ j, j < M.length → 0 < j → M.take j <:+ x → ¬ (M.drop j).take k <+: p) :
    ∀ j, j < M.length → 0 < j → M.take j <:+ x → M.drop j <+: y → False := by
  intro j hl h0 hs hpre
  exact hdec j hl h0 hs (hy ▸ prefix_take_prefix _ _ k hpre)

theorem span_kill_last (m x y : Str) (c : Char) (hx : x.getLast? = some c)
    (hdec : ∀ j, j < m.length → 0 < j → (m.take j).getLast? ≠ some c) :
    ∀ j, j < m.length → 0 < j → m.take j <:+ x → m.drop j <+: y → False := by
  intro j hl h0 hs _
  have hne : m.take j ≠ [] := by
    intro hnil
    have h1 : (List.take j m).length = 0 := by rw [hnil]; rfl
    rw [List.length_take] at h1
    omega
  exact hdec j hl h0 ((suffix_getLast _ _ hs hne).symm.trans hx)

/-! ### Uppercasing preserves quote-freedom -/

theorem charUpper_band : ∀ n, n < 123 → 97 ≤ n → Char.ofNat (n - 32) ≠ Char.ofNat 34 := by
  decide

theorem toUpper_ne_qc (c : Char) (h : c ≠ qc) : c.toUpper ≠ qc := by
  unfold qc at h ⊢
  simp only [Char.toUpper]
  split
  · rename_i hcond
    exact charUpper_band c.toNat (by omega) (by omega)
  · exact h

theorem qc_not_mem_titleCase (s : Str) (h : qc ∉ s) : qc ∉ titleCase s := by
  cases s with
  | nil => simp [titleCase]
  | cons c cs =>
    simp only [titleCase, List.mem_cons, not_or] at h ⊢
    exact ⟨fun hq => toUpper_ne_qc c (fun hc => h.1 hc.symm) hq.symm, h.2⟩

/-! ### Marker occurrences across joined blocks -/

theorem joinSep_marker (M sep : Str) (c : Char) (bs : List Str)
    (hM : M ≠ [])
    (hlast : ∀ b ∈ bs, b.getLast? = some c)
    (hMc : ∀ j, j < M.length → 0 < j → (M.take j).getLast? ≠ some c)
    (hsep : ¬ M <:+: sep)
    (hsepspan : ∀ j, j < M.length → 0 < j → ¬ M.take j <:+ sep) :
    M <:+: joinSep sep bs ↔ ∃ b ∈ bs, M <:+: b := by
  induction bs with
  | nil =>
    simp only [joinSep, List.not_mem_nil, false_and, exists_false, iff_false]
    intro h
    exact hM (List.sublist_nil.mp h.sublist)
  | cons b bs ih =>
    cases bs with
    | nil => simp [joinSep]
    | cons b2 bs2 =>
      have hlast2 : ∀ x ∈ b2 :: bs2, x.getLast? = some c :=
        fun x hx => hlast x (List.mem_cons_of_mem b hx)
      have ihx := ih hlast2
      have hjoin : joinSep sep (b :: b2 :: bs2) =
          b ++ (sep ++ joinSep sep (b2 :: bs2)) := by
        simp [joinSep, List.append_assoc]
      constructor
      · intro h
        rw [hjoin] at h
        rcases (infix_split M b _).1 h with hb | hrest | ⟨j, hj0, hjl, hsuf, hpre⟩
        · exact ⟨b, List.mem_cons_self b _, hb⟩
        · rcases (infix_split M sep _).1 hrest with hs | hr | ⟨j, hj0, hjl, hsuf, hpre⟩
          · exact absurd hs hsep
          · obtain ⟨x, hx, hmx⟩ := ihx.1 hr
            exact ⟨x, List.mem_cons_of_mem b hx, hmx⟩
          · exact (hsepspan j hjl hj0 hsuf).elim
        · exact (span_kill_last M b _ c (hlast b (List.mem_cons_self b _)) hMc
            j hjl hj0 hsuf hpre).elim
      · rintro ⟨x, hx, hmx⟩
        rw [hjoin]
        rcases List.mem_cons.mp hx with rfl | hx2
        · exact infix_ext_right _ _ _ hmx
        · exact infix_ext_left _ _ _
            (infix_ext_left _ _ _ (ihx.2 ⟨x, hx2, hmx⟩))

/-- A marker occurs in a rendered field block (src/src/index.ts shape)
iff it occurs in the block's input fragment, provided it cannot occur
in or straddle the interpolated name, field, label and fragment
boundaries.  The side conditions on the fixed template text are
decidable once the marker is concrete. -/
theorem block_infix_reduce (M n fld lbl frag : Str)
    (hn : ¬ M <:+: n) (hf : ¬ M <:+: fld) (hl : ¬ M <:+: lbl)
    (hfraglast : frag.getLast? = some '>')
    (hE1 : ¬ M <:+: "  <Form.Field form=\x7b".data)
    (hE2 : ∀ j, j < M.length → 0 < j → ¬ M.take j <:+ "  <Form.Field form=\x7b".data)
    (hG0 : ∀ j, j < M.length → 0 < j → M.take j <:+ n →
      ¬ (M.drop j).take 2 <+: "\x7d ".data)
    (hG1 : ¬ M <:+: "\x7d name=\"".data)
    (hG2 : ∀ j, j < M.length → 0 < j → ¬ M.take j <:+ "\x7d name=\"".data)
    (hH0 : ∀ j, j < M.length → 0 < j → M.take j <:+ fld →
      ¬ (M.drop j).take 2 <+: "\">".data)
    (hH1 : ¬ M <:+: "\">\n    <Form.Control let:attrs>\n      <Form.Label>".data)
    (hH2 : ∀ j, j < M.length → 0 < j →
      ¬ M.take j <:+ "\">\n    <Form.Control let:attrs>\n      <Form.Label>".data)
    (hI0 : ∀ j, j < M.length → 0 < j → M.take j <:+ lbl →
      ¬ (M.drop j).take 2 <+: "</".data)
    (hI1 : ¬ M <:+: "</Form.Label>\n      ".data)
    (hI2 : ∀ j, j < M.length → 0 < j → ¬ M.take j <:+ "</Form.Label>\n      ".data)
    (hJ1 : ¬ M <:+: "\n    </Form.Control>\n    <Form.FieldErrors />\n  </Form.Field>".data)
    (hGT : ∀ j, j < M.length → 0 < j → (M.take j).getLast? ≠ some '>') :
    (M <:+: "  <Form.Field form=\x7b".data ++ (n ++ ("\x7d name=\"".data ++ (fld ++
        ("\">\n    <Form.Control let:attrs>\n      <Form.Label>".data ++ (lbl ++
        ("</Form.Label>\n      ".data ++ (frag ++
        "\n    </Form.Control>\n    <Form.FieldErrors />\n  </Form.Field>".data)))))))) ↔
      M <:+: frag := by
  constructor
  · intro h
    have h1 := infix_append_elim M _ _ hE1 (span_kill_take _ _ _ hE2) h
    have h2 := infix_append_elim M n _ hn
      (span_kill_front2 M n _ "\x7d ".data 2
        ((take_of_append_lit _ _ 2 (by decide)).trans (by decide)) hG0) h1
    have h3 := infix_append_elim M _ _ hG1 (span_kill_take _ _ _ hG2) h2
    have h4 := infix_append_elim M fld _ hf
      (span_kill_front2 M fld _ "\">".data 2
        ((take_of_append_lit _ _ 2 (by decide)).trans (by decide)) hH0) h3
    have h5 := infix_append_elim M _ _ hH1 (span_kill_take _ _ _ hH2) h4
    have h6 := infix_append_elim M lbl _ hl
      (span_kill_front2 M lbl _ "</".data 2
        ((take_of_append_lit _ _ 2 (by decide)).trans (by decide)) hI0) h5
    have h7 := infix_append_elim M _ _ hI1 (span_kill_take _ _ _ hI2) h6
    rcases (infix_split M frag _).1 h7 with hfr | hJ | ⟨j, hj0, hjl, hsuf, hpre⟩
    · exact hfr
    · exact absurd hJ hJ1
    · exact (span_kill_last M frag _ '>' hfraglast hGT j hjl hj0 hsuf hpre).elim
  · intro h
    exact infix_ext_left _ _ _ (infix_ext_left _ _ _ (infix_ext_left _ _ _
      (infix_ext_left _ _ _ (infix_ext_left _ _ _ (infix_ext_left _ _ _
      (infix_ext_left _ _ _ (infix_ext_right _ _ _ h)))))))

/-! ### Marker occurrences inside the three input fragments -/

theorem chain5_reduce (M a n b fld tail : Str)
    (ha1 : ¬ M <:+: a) (ha2 : ∀ j, j < M.length → 0 < j → ¬ M.take j <:+ a)
    (hn : ¬ M <:+: n)
    (hb0 : ∀ j, j < M.length → 0 < j → ¬ (M.drop j).take 2 <+: b.take 2)
    (hblen : 2 ≤ b.length)
    (hb1 : ¬ M <:+: b) (hb2 : ∀ j, j < M.length → 0 < j → ¬ M.take j <:+ b)
    (hf : ¬ M <:+: fld)
    (htail0 : ∀ j, j < M.length → 0 < j → ¬ (M.drop j).take 2 <+: tail.take 2) :
    M <:+: a ++ (n ++ (b ++ (fld ++ tail))) → M <:+: tail := by
  intro h
  have h1 := infix_append_elim M a _ ha1 (span_kill_take _ _ _ ha2) h
  have h2 := infix_append_elim M n _ hn
    (span_kill_front M n _ (b.take 2) 2 (take_of_append_lit _ _ 2 hblen) hb0) h1
  have h3 := infix_append_elim M b _ hb1 (span_kill_take _ _ _ hb2) h2
  exact infix_append_elim M fld _ hf
    (span_kill_front M fld _ (tail.take 2) 2 rfl htail0) h3

theorem frag_textarea_no_typefile (n fld : Str) (hn : qc ∉ n) (hf : qc ∉ fld) :
    ¬ "type=\"file\"".data <:+: "<Textarea \x7b...attrs\x7d bind:value=\x7b$".data ++ (n ++ ("Data.".data ++ (fld ++ "\x7d rows=\x7b4\x7d />".data))) := by
  apply not_infix_of_mem _ _ qc (by decide)
  simp only [List.mem_append, not_or]
  exact ⟨by decide, hn, by decide, hf, by decide⟩

theorem frag_files_typefile (n fld : Str) :
    "type=\"file\"".data <:+: "<Input \x7b...attrs\x7d bind:value=\x7b$".data ++ (n ++ ("Data.".data ++ (fld ++ "\x7d type=\"file\" multiple />".data))) :=
  infix_ext_left _ _ _ (infix_ext_left _ _ _ (infix_ext_left _ _ _
    (infix_ext_left _ _ _ (by decide))))

theorem frag_textarea_has_textarea (n fld : Str) :
    "Textarea".data <:+: "<Textarea \x7b...attrs\x7d bind:value=\x7b$".data ++ (n ++ ("Data.".data ++ (fld ++ "\x7d rows=\x7b4\x7d />".data))) :=
  infix_ext_right _ _ _ (by decide)

theorem frag_files_no_textarea (n fld : Str)
    (hn : ¬ "Textarea".data <:+: n) (hf : ¬ "Textarea".data <:+: fld) :
    ¬ "Textarea".data <:+: "<Input \x7b...attrs\x7d bind:value=\x7b$".data ++ (n ++ ("Data.".data ++ (fld ++ "\x7d type=\"file\" multiple />".data))) := by
  intro h
  have := chain5_reduce "Textarea".data _ n "Data.".data fld "\x7d type=\"file\" multiple />".data
    (by decide) (by decide) hn (by decide) (by decide) (by decide) (by decide)
    hf (by decide) h
  exact absurd this (by decide)

theorem frag_fallback_no_textarea (n fld t : Str)
    (hn : ¬ "Textarea".data <:+: n) (hf : ¬ "Textarea".data <:+: fld) (ht : ¬ "Textarea".data <:+: t) :
    ¬ "Textarea".data <:+: "<Input \x7b...attrs\x7d bind:value=\x7b$".data ++ (n ++ ("Data.".data ++ (fld ++ ("\x7d type=\"".data ++ (t ++ "\" />".data))))) := by
  intro h
  have h1 := chain5_reduce "Textarea".data _ n "Data.".data fld ("\x7d type=\"".data ++ (t ++ "\" />".data))
    (by decide) (by decide) hn (by decide) (by decide) (by decide) (by decide)
    hf
    (by
      simp only [take_of_append_lit "\x7d type=\"".data (t ++ "\" />".data) 2 (by decide)]
      decide) h
  have h2 := infix_append_elim "Textarea".data "\x7d type=\"".data _ (by decide)
    (span_kill_take _ _ _ (by decide)) h1
  have h3 := infix_append_elim "Textarea".data t _ ht
    (span_kill_front _ t _ ("\" />".data.take 2) 2 rfl (by decide)) h2
  exact absurd h3 (by decide)

theorem frag_textarea_no_input (n fld : Str)
    (hn : ¬ "Input".data <:+: n) (hf : ¬ "Input".data <:+: fld) :
    ¬ "Input".data <:+: "<Textarea \x7b...attrs\x7d bind:value=\x7b$".data ++ (n ++ ("Data.".data ++ (fld ++ "\x7d rows=\x7b4\x7d />".data))) := by
  intro h
  have := chain5_reduce "Input".data _ n "Data.".data fld "\x7d rows=\x7b4\x7d />".data
    (by decide) (by decide) hn (by decide) (by decide) (by decide) (by decide)
    hf (by decide) h
  exact absurd this (by decide)

theorem frag_files_has_input (n fld : Str) :
    "Input".data <:+: "<Input \x7b...attrs\x7d bind:value=\x7b$".data ++ (n ++ ("Data.".data ++ (fld ++ "\x7d type=\"file\" multiple />".data))) :=
  infix_ext_right _ _ _ (by decide)

theorem frag_fallback_has_input (n fld t : Str) :
    "Input".data <:+: "<Input \x7b...attrs\x7d bind:value=\x7b$".data ++ (n ++ ("Data.".data ++ (fld ++ ("\x7d type=\"".data ++ (t ++ "\" />".data))))) :=
  infix_ext_right _ _ _ (by decide)

/-- The marker `type="file"` occurs in the fallback input fragment iff
the interpolated type text is exactly "file" (given that the
interpolations carry no double quote): the occurrence necessarily
overlays the fragment's fixed quotes. -/
theorem frag_fallback_typefile_iff (n fld t : Str)
    (hn : qc ∉ n) (hf : qc ∉ fld) (ht : qc ∉ t) :
    ("type=\"file\"".data <:+: "<Input \x7b...attrs\x7d bind:value=\x7b$".data ++ (n ++ ("Data.".data ++ (fld ++ ("\x7d type=\"".data ++ (t ++ "\" />".data)))))) ↔ t = "file".data := by
  constructor
  · intro h
    have h1 := chain5_reduce "type=\"file\"".data _ n "Data.".data fld ("\x7d type=\"".data ++ (t ++ "\" />".data))
      (by decide) (by decide)
      (not_infix_of_mem _ _ qc (by decide) hn)
      (by decide) (by decide) (by decide) (by decide)
      (not_infix_of_mem _ _ qc (by decide) hf)
      (by
        simp only [take_of_append_lit "\x7d type=\"".data (t ++ "\" />".data) 2 (by decide)]
        decide) h
    rcases (infix_split "type=\"file\"".data "\x7d type=\"".data _).1 h1 with hC | hTD | ⟨j, hj0, hjl, hsuf, hpre⟩
    · exact absurd hC (by decide)
    · rcases (infix_split "type=\"file\"".data t "\" />".data).1 hTD with htt | hD | ⟨j, hj0, hjl, hsuf, hpre⟩
      · exact absurd htt (not_infix_of_mem _ _ qc (by decide) ht)
      · exact absurd hD (by decide)
      · exfalso
        have hqn : qc ∉ ("type=\"file\"".data).take j :=
          fun hq => ht (mem_of_suffix_mem _ _ _ hsuf hq)
        have hj5 : j ≤ 5 :=
          (by decide :
            ∀ j, j < ("type=\"file\"".data).length → 0 < j → qc ∉ ("type=\"file\"".data).take j → j ≤ 5)
            j hjl hj0 hqn
        have hfront := prefix_take_prefix _ _ 2 hpre
        exact
          (by decide :
            ∀ j, j < ("type=\"file\"".data).length → 0 < j → j ≤ 5 →
              ¬ (("type=\"file\"".data).drop j).take 2 <+: ("\" />".data).take 2)
            j hjl hj0 hj5 hfront
    · have hj6 : j = 6 :=
        (by decide :
          ∀ j, j < ("type=\"file\"".data).length → 0 < j → ("type=\"file\"".data).take j <:+ "\x7d type=\"".data → j = 6)
          j hjl hj0 hsuf
      subst hj6
      rw [show ("type=\"file\"".data).drop 6 = "file\"".data from rfl] at hpre
      rcases (prefix_split "file\"".data t "\" />".data).1 hpre with hft | ⟨htp, hdp⟩
      · exact absurd (hft.sublist.subset (by decide : qc ∈ "file\"".data)) ht
      · have hteq : t = ("file\"".data).take t.length :=
          List.prefix_iff_eq_take.mp htp
        have hlen : t.length ≤ 5 := by
          have := htp.sublist.length_le
          simpa using this
        by_cases h5 : t.length = 5
        · rw [h5] at hteq
          rw [show ("file\"".data).take 5 = "file\"".data from rfl] at hteq
          exact absurd (hteq ▸ (by decide : qc ∈ "file\"".data)) ht
        · have hk4 : t.length = 4 :=
            (by decide :
              ∀ k, k ≤ 4 → ("file\"".data).drop k <+: "\" />".data → k = 4)
              t.length (by omega) hdp
          rw [hk4] at hteq
          exact hteq
  · intro h
    subst h
    exact infix_ext_left _ _ _ (infix_ext_left _ _ _ (infix_ext_left _ _ _
      (infix_ext_left _ _ _ (by decide))))

/-! ### Marker occurrences in a whole field block -/

theorem renderInput_getLast (f : Field) (n : Str) :
    (V1.renderInput f n).getLast? = some '>' := by
  unfold V1.renderInput
  split
  · exact getLast_of_append_lit _ _ '>' (by decide)
  · split
    · exact getLast_of_append_lit _ _ '>' (by decide)
    · exact getLast_of_append_lit _ _ '>' (by decide)

theorem renderField_getLast (f : Field) (n : Str) :
    (V1.renderField f n).getLast? = some '>' := by
  unfold V1.renderField
  exact getLast_of_append_lit _ _ '>' (by decide)

theorem block_textarea_iff (n : Str) (f : Field)
    (h : widgetMarkerFree "Textarea".data n f) :
    "Textarea".data <:+: V1.renderField f n ↔ f.type = some "textarea".data := by
  obtain ⟨hn, hf, hl, ht⟩ := h
  unfold V1.renderField
  simp only [List.append_assoc]
  rw [block_infix_reduce "Textarea".data n f.field (titleCase f.field)
    (V1.renderInput f n) hn hf hl (renderInput_getLast f n)
    (by decide) (by decide)
    (fun j hj h0 _ =>
      (by decide : ∀ j, j < ("Textarea".data).length → 0 < j →
        ¬ (("Textarea".data).drop j).take 2 <+: "\x7d ".data) j hj h0)
    (by decide) (by decide)
    (fun j hj h0 _ =>
      (by decide : ∀ j, j < ("Textarea".data).length → 0 < j →
        ¬ (("Textarea".data).drop j).take 2 <+: "\">".data) j hj h0)
    (by decide) (by decide)
    (fun j hj h0 _ =>
      (by decide : ∀ j, j < ("Textarea".data).length → 0 < j →
        ¬ (("Textarea".data).drop j).take 2 <+: "</".data) j hj h0)
    (by decide) (by decide) (by decide) (by decide)]
  unfold V1.renderInput
  simp only [List.append_assoc]
  by_cases h1 : f.type = some "textarea".data
  · rw [if_pos h1]
    exact iff_of_true (frag_textarea_has_textarea n f.field) h1
  · rw [if_neg h1]
    by_cases h2 : f.type = some "files".data
    · rw [if_pos h2]
      exact iff_of_false (frag_files_no_textarea n f.field hn hf) h1
    · rw [if_neg h2]
      exact iff_of_false
        (frag_fallback_no_textarea n f.field (typeStr f.type) hn hf ht) h1

theorem block_input_iff (n : Str) (f : Field)
    (h : widgetMarkerFree "Input".data n f) :
    "Input".data <:+: V1.renderField f n ↔ ¬ f.type = some "textarea".data := by
  obtain ⟨hn, hf, hl, ht⟩ := h
  unfold V1.renderField
  simp only [List.append_assoc]
  rw [block_infix_reduce "Input".data n f.field (titleCase f.field)
    (V1.renderInput f n) hn hf hl (renderInput_getLast f n)
    (by decide) (by decide)
    (fun j hj h0 _ =>
      (by decide : ∀ j, j < ("Input".data).length → 0 < j →
        ¬ (("Input".data).drop j).take 2 <+: "\x7d ".data) j hj h0)
    (by decide) (by decide)
    (fun j hj h0 _ =>
      (by decide : ∀ j, j < ("Input".data).length → 0 < j →
        ¬ (("Input".data).drop j).take 2 <+: "\">".data) j hj h0)
    (by decide) (by decide)
    (fun j hj h0 _ =>
      (by decide : ∀ j, j < ("Input".data).length → 0 < j →
        ¬ (("Input".data).drop j).take 2 <+: "</".data) j hj h0)
    (by decide) (by decide) (by decide) (by decide)]
  unfold V1.renderInput
  simp only [List.append_assoc]
  by_cases h1 : f.type = some "textarea".data
  · rw [if_pos h1]
    exact iff_of_false (frag_textarea_no_input n f.field hn hf) (not_not_intro h1)
  · rw [if_neg h1]
    by_cases h2 : f.type = some "files".data
    · rw [if_pos h2]
      exact iff_of_true (frag_files_has_input n f.field) h1
    · rw [if_neg h2]
      exact iff_of_true (frag_fallback_has_input n f.field (typeStr f.type)) h1

theorem block_typefile_iff (n : Str) (f : Field) (h : quoteFree n f) :
    "type=\"file\"".data <:+: V1.renderField f n ↔
      f.type = some "files".data ∨ f.type = some "file".data := by
  obtain ⟨hn, hf, ht⟩ := h
  have hl : qc ∉ titleCase f.field := qc_not_mem_titleCase _ hf
  unfold V1.renderField
  simp only [List.append_assoc]
  rw [block_infix_reduce "type=\"file\"".data n f.field (titleCase f.field)
    (V1.renderInput f n)
    (not_infix_of_mem _ _ qc (by decide) hn)
    (not_infix_of_mem _ _ qc (by decide) hf)
    (not_infix_of_mem _ _ qc (by decide) hl)
    (renderInput_getLast f n)
    (by decide) (by decide)
    (fun j hj h0 _ =>
      (by decide : ∀ j, j < ("type=\"file\"".data).length → 0 < j →
        ¬ (("type=\"file\"".data).drop j).take 2 <+: "\x7d ".data) j hj h0)
    (by decide) (by decide)
    (fun j hj h0 hsuf =>
      (by decide : ∀ j, j < ("type=\"file\"".data).length → 0 < j →
        qc ∉ ("type=\"file\"".data).take j →
        ¬ (("type=\"file\"".data).drop j).take 2 <+: "\">".data) j hj h0
        (fun hq => hf (mem_of_suffix_mem _ _ _ hsuf hq)))
    (by decide) (by decide)
    (fun j hj h0 _ =>
      (by decide : ∀ j, j < ("type=\"file\"".data).length → 0 < j →
        ¬ (("type=\"file\"".data).drop j).take 2 <+: "</".data) j hj h0)
    (by decide) (by decide) (by decide) (by decide)]
  unfold V1.renderInput
  simp only [List.append_assoc]
  by_cases h1 : f.type = some "textarea".data
  · rw [if_pos h1]
    refine iff_of_false (frag_textarea_no_typefile n f.field hn hf) ?_
    rw [h1]
    decide
  · rw [if_neg h1]
    by_cases h2 : f.type = some "files".data
    · rw [if_pos h2]
      exact iff_of_true (frag_files_typefile n f.field) (Or.inl h2)
    · rw [if_neg h2]
      rw [frag_fallback_typefile_iff n f.field (typeStr f.type) hn hf ht]
      cases hc : f.type with
      | none =>
        refine iff_of_false (by decide) ?_
        rintro (hx | hx) <;> exact Option.noConfusion hx
      | some t2 =>
        constructor
        · intro hx
          refine Or.inr ?_
          rw [show typeStr (some t2) = t2 from rfl] at hx
          rw [hx]
        · rintro (hx | hx)
          · exact absurd (hc ▸ hx : f.type = some "files".data) h2
          · rw [show typeStr (some t2) = t2 from rfl]
            exact Option.some.inj (hc ▸ hx)

/-! ### Marker occurrences in the joined field blocks -/

theorem renderedFields_textarea_iff (n : Str) (fs : List Field)
    (h : ∀ f ∈ fs, widgetMarkerFree "Textarea".data n f) :
    "Textarea".data <:+: V1.renderedFields n fs ↔
      ∃ f ∈ fs, f.type = some "textarea".data := by
  unfold V1.renderedFields
  rw [joinSep_marker "Textarea".data "\n\n".data '>'
    (fs.map (fun f => V1.renderField f n)) (by decide)
    (by
      intro b hb
      obtain ⟨f, hf, rfl⟩ := List.mem_map.mp hb
      exact renderField_getLast f n)
    (by decide) (by decide) (by decide)]
  constructor
  · rintro ⟨b, hb, hmb⟩
    obtain ⟨f, hf, rfl⟩ := List.mem_map.mp hb
    exact ⟨f, hf, (block_textarea_iff n f (h f hf)).1 hmb⟩
  · rintro ⟨f, hf, hft⟩
    exact ⟨V1.renderField f n, List.mem_map_of_mem _ hf,
      (block_textarea_iff n f (h f hf)).2 hft⟩

theorem renderedFields_input_iff (n : Str) (fs : List Field)
    (h : ∀ f ∈ fs, widgetMarkerFree "Input".data n f) :
    "Input".data <:+: V1.renderedFields n fs ↔
      ∃ f ∈ fs, ¬ f.type = some "textarea".data := by
  unfold V1.renderedFields
  rw [joinSep_marker "Input".data "\n\n".data '>'
    (fs.map (fun f => V1.renderField f n)) (by decide)
    (by
      intro b hb
      obtain ⟨f, hf, rfl⟩ := List.mem_map.mp hb
      exact renderField_getLast f n)
    (by decide) (by decide) (by decide)]
  constructor
  · rintro ⟨b, hb, hmb⟩
    obtain ⟨f, hf, rfl⟩ := List.mem_map.mp hb
    exact ⟨f, hf, (block_input_iff n f (h f hf)).1 hmb⟩
  · rintro ⟨f, hf, hft⟩
    exact ⟨V1.renderField f n, List.mem_map_of_mem _ hf,
      (block_input_iff n f (h f hf)).2 hft⟩

theorem renderedFields_typefile_iff (n : Str) (fs : List Field)
    (h : ∀ f ∈ fs, quoteFree n f) :
    "type=\"file\"".data <:+: V1.renderedFields n fs ↔
      ∃ f ∈ fs, f.type = some "files".data ∨ f.type = some "file".data := by
  unfold V1.renderedFields
  rw [joinSep_marker "type=\"file\"".data "\n\n".data '>'
    (fs.map (fun f => V1.renderField f n)) (by decide)
    (by
      intro b hb
      obtain ⟨f, hf, rfl⟩ := List.mem_map.mp hb
      exact renderField_getLast f n)
    (by decide) (by decide) (by decide)]
  constructor
  · rintro ⟨b, hb, hmb⟩
    obtain ⟨f, hf, rfl⟩ := List.mem_map.mp hb
    exact ⟨f, hf, (block_typefile_iff n f (h f hf)).1 hmb⟩
  · rintro ⟨f, hf, hft⟩
    exact ⟨V1.renderField f n, List.mem_map_of_mem _ hf,
      (block_typefile_iff n f (h f hf)).2 hft⟩

/-- C4 (amended): provided the widget markers "Input" and "Textarea" do
not occur inside the form name, the field names, the capitalized labels
or the type tags, the generated view document's header contains the
multi-line (Textarea) widget import line iff at least one field has
type "textarea", and the single-line (Input) widget import line iff at
least one field has a type other than "textarea" (which is what renders
a single-line widget).  Without that proviso the claim fails, because
the import test is a raw substring check over the rendered blocks. -/
theorem c4_header_imports (n : Str) (fs : List Field)
    (hT : ∀ f ∈ fs, widgetMarkerFree "Textarea".data n f)
    (hI : ∀ f ∈ fs, widgetMarkerFree "Input".data n f) :
    (includes (renderHeader (V1.renderedFields n fs))
        "  import \x7b Textarea \x7d from \"$ui/textarea\";".data = true ↔
      ∃ f ∈ fs, f.type = some "textarea".data) ∧
    (includes (renderHeader (V1.renderedFields n fs))
        "  import \x7b Input \x7d from \"$ui/input\";".data = true ↔
      ∃ f ∈ fs, ¬ f.type = some "textarea".data) := by
  rw [← renderedFields_textarea_iff n fs hT, ← renderedFields_input_iff n fs hI]
  unfold renderHeader
  by_cases hi : includes (V1.renderedFields n fs) "Input".data = true
  · by_cases ht : includes (V1.renderedFields n fs) "Textarea".data = true
    · rw [if_pos hi, if_pos ht]
      exact ⟨iff_of_true (by decide) ((includes_iff _ _).1 ht),
        iff_of_true (by decide) ((includes_iff _ _).1 hi)⟩
    · rw [if_pos hi, if_neg ht]
      exact ⟨iff_of_false (by decide) (fun hx => ht ((includes_iff _ _).2 hx)),
        iff_of_true (by decide) ((includes_iff _ _).1 hi)⟩
  · by_cases ht : includes (V1.renderedFields n fs) "Textarea".data = true
    · rw [if_neg hi, if_pos ht]
      exact ⟨iff_of_true (by decide) ((includes_iff _ _).1 ht),
        iff_of_false (by decide) (fun hx => hi ((includes_iff _ _).2 hx))⟩
    · rw [if_neg hi, if_neg ht]
      exact ⟨iff_of_false (by decide) (fun hx => ht ((includes_iff _ _).2 hx)),
        iff_of_false (by decide) (fun hx => hi ((includes_iff _ _).2 hx))⟩

/-- C4 counterexample: the claim as stated is false: with the single
field "input:textarea" every field renders the multi-line widget, yet
the header carries the single-line (Input) import line, because the
field's capitalized label "Input" trips the substring check. -/
theorem c4_label_counterexample :
    includes
        (renderHeader (V1.renderedFields "f".data
          [{ field := "input".data, type := some "textarea".data }]))
        "  import \x7b Input \x7d from \"$ui/input\";".data = true ∧
      ∀ f ∈ [({ field := "input".data, type := some "textarea".data } : Field)],
        f.type = some "textarea".data := by
  constructor
  · decide
  · decide

/-- C4 witness: the amended theorem applied to a concrete two-field
form (one email field, one textarea field), both import lines present. -/
theorem c4_header_imports_witness :
    (includes
        (renderHeader (V1.renderedFields "login".data
          [{ field := "email".data, type := some "email".data },
           { field := "bio".data, type := some "textarea".data }]))
        "  import \x7b Textarea \x7d from \"$ui/textarea\";".data = true ↔
      ∃ f ∈ [({ field := "email".data, type := some "email".data } : Field),
             { field := "bio".data, type := some "textarea".data }],
        f.type = some "textarea".data) ∧
    (includes
        (renderHeader (V1.renderedFields "login".data
          [{ field := "email".data, type := some "email".data },
           { field := "bio".data, type := some "textarea".data }]))
        "  import \x7b Input \x7d from \"$ui/input\";".data = true ↔
      ∃ f ∈ [({ field := "email".data, type := some "email".data } : Field),
             { field := "bio".data, type := some "textarea".data }],
        ¬ f.type = some "textarea".data) :=
  c4_header_imports "login".data
    [{ field := "email".data, type := some "email".data },
     { field := "bio".data, type := some "textarea".data }]
    (by decide) (by decide)

/-- C3 (amended): provided the form name, field names and type tags
carry no double-quote character, the multipart form-encoding attribute
is emitted into the generated form tag iff at least one field has type
"files" OR type "file" — the source keys the attribute on the marker
text `type="file"`, which the fallback widget for type "file" also
produces; when it is emitted, the generated view document contains it.
The claim as stated (iff some field has type exactly "files") is
false. -/
theorem c3_multipart (n : Str) (fs : List Field) (project : Option Str)
    (h : ∀ f ∈ fs, quoteFree n f) :
    (renderFormType (V1.renderedFields n fs) =
        " enctype=\"multipart/form-data\"".data ↔
      ∃ f ∈ fs, f.type = some "files".data ∨ f.type = some "file".data) ∧
    ((∃ f ∈ fs, f.type = some "files".data ∨ f.type = some "file".data) →
      includes (V1.pageSvelte n fs project)
        " enctype=\"multipart/form-data\"".data = true) := by
  have hTF := renderedFields_typefile_iff n fs h
  have hattr : ∀ hx : ∃ f ∈ fs, f.type = some "files".data ∨ f.type = some "file".data,
      renderFormType (V1.renderedFields n fs) =
        " enctype=\"multipart/form-data\"".data := by
    intro hx
    unfold renderFormType
    rw [if_pos ((includes_iff _ _).2 (hTF.2 hx))]
  constructor
  · constructor
    · intro heq
      by_contra hx
      have hni : ¬ includes (V1.renderedFields n fs) "type=\"file\"".data = true :=
        fun hc => hx (hTF.1 ((includes_iff _ _).1 hc))
      unfold renderFormType at heq
      rw [if_neg hni] at heq
      exact (by decide : ¬ (([] : Str) =
        " enctype=\"multipart/form-data\"".data)) heq
    · exact hattr
  · intro hx
    rw [includes_iff]
    unfold V1.pageSvelte
    rw [hattr hx]
    simp only [List.append_assoc]
    repeat first
    | exact infix_ext_right _ _ _ (List.infix_refl _)
    | apply infix_ext_left

/-- C3 counterexample: the claim as stated is false: with the single
field "doc:file" (type "file", not "files") the generated view document
contains the multipart attribute, because the fallback widget renders
`type="file"` and the source's substring check fires on it. -/
theorem c3_file_counterexample :
    includes
        (V1.pageSvelte "f".data
          [{ field := "doc".data, type := some "file".data }] none)
        " enctype=\"multipart/form-data\"".data = true ∧
      ∀ f ∈ [({ field := "doc".data, type := some "file".data } : Field)],
        ¬ f.type = some "files".data := by
  constructor
  · rw [includes_iff]
    unfold V1.pageSvelte
    rw [show renderFormType (V1.renderedFields "f".data
        [{ field := "doc".data, type := some "file".data }]) =
      " enctype=\"multipart/form-data\"".data from by decide]
    simp only [List.append_assoc]
    repeat first
    | exact infix_ext_right _ _ _ (List.infix_refl _)
    | apply infix_ext_left
  · decide

/-- C3 witness: the amended theorem applied to a concrete upload form
with one "files" field. -/
theorem c3_multipart_witness :
    (renderFormType (V1.renderedFields "gallery".data
        [{ field := "photos".data, type := some "files".data }]) =
      " enctype=\"multipart/form-data\"".data ↔
      ∃ f ∈ [({ field := "photos".data, type := some "files".data } : Field)],
        f.type = some "files".data ∨ f.type = some "file".data) ∧
    ((∃ f ∈ [({ field := "photos".data, type := some "files".data } : Field)],
        f.type = some "files".data ∨ f.type = some "file".data) →
      includes (V1.pageSvelte "gallery".data
          [{ field := "photos".data, type := some "files".data }] none)
        " enctype=\"multipart/form-data\"".data = true) :=
  c3_multipart "gallery".data
    [{ field := "photos".data, type := some "files".data }] none (by decide)
